import Mathlib

/-
Verification of the inventory-reservation engine of the School Equipment
Lending Portal (Express + Mongoose backend).

The borrowing route handlers (server/routes/borrowings.js), the equipment
route handlers (server/routes/equipment.js), the Mongoose models
(server/models/Equipment.js, server/models/Borrowing.js) and the periodic
reconciler (server/utils/overdueChecker.js) are shallowly embedded as pure
state-transition functions on a `Store` holding the two Mongo collections.
Dates are modelled as integers, Mongo ObjectIds as naturals, and JS numbers
holding counts as integers.  Each handler is transcribed branch by branch:
an early `res.status(...)` return before any write is a `(err, s)` result
with the store unchanged, and the sequence of `save()` calls on a success
path is the returned updated store.
-/

namespace Lending

/-- Equipment/borrowing condition strings
(`enum: ['excellent','good','fair','poor','under_maintenance']` in
server/models/Equipment.js; the borrowing model restricts its two condition
fields to the first four values, a restriction none of the handlers relies
on). -/
inductive Cond
  | excellent
  | good
  | fair
  | poor
  | maintenance
  deriving DecidableEq, Repr

/-- Borrowing lifecycle status
(`enum: ['pending','approved','rejected','issued','returned','overdue']`
in server/models/Borrowing.js). -/
inductive BStatus
  | pending
  | approved
  | rejected
  | issued
  | returned
  | overdue
  deriving DecidableEq, Repr

/-- Repair status of an embedded damage report
(`enum: ['reported','under_repair','repaired','written_off']`). -/
inductive RepairStatus
  | reported
  | underRepair
  | repaired
  | writtenOff
  deriving DecidableEq, Repr

/-- One document of the Equipment collection (the fields the engine reads or
writes; `quantity` is the spec's totalQuantity). -/
structure Equipment where
  quantity : Int
  availableQuantity : Int
  condition : Cond
  isActive : Bool
  deriving DecidableEq, Repr

/-- The damage report subdocument embedded in a borrowing. -/
structure DamageReport where
  description : String
  reportedAt : Int
  reportedBy : Nat
  repairStatus : RepairStatus
  deriving DecidableEq, Repr

/-- One document of the Borrowing collection (the spec's Reservation). -/
structure Borrowing where
  user : Nat
  equipment : Nat
  quantity : Int
  borrowDate : Int
  dueDate : Int
  returnDate : Option Int
  status : BStatus
  approvedBy : Option Nat
  approvedAt : Option Int
  issuedAt : Option Int
  conditionBefore : Cond
  conditionAfter : Option Cond
  notes : Option String
  damageReport : Option DamageReport
  deriving DecidableEq, Repr

/-- The persistent state: the two Mongo collections, as id-keyed
association lists. -/
structure Store where
  equipments : List (Nat × Equipment)
  borrowings : List (Nat × Borrowing)
  deriving DecidableEq, Repr

def emptyStore : Store := { equipments := [], borrowings := [] }

/-- `Model.findById`: first document with the given id. -/
def findById {α : Type} (l : List (Nat × α)) (k : Nat) : Option α :=
  match l with
  | [] => none
  | (k2, v) :: rest => if k2 = k then some v else findById rest k

/-- Saving a mutated document back: replace the document with the given id. -/
def setById {α : Type} (l : List (Nat × α)) (k : Nat) (v : α) : List (Nat × α) :=
  l.map (fun p => if p.1 = k then (k, v) else p)

/-- The error responses the handlers can produce, one constructor per
distinct (status, message) early return; `serverError` is the catch-all 500
from a thrown exception. -/
inductive ApiError
  | validationError
  | notFound
  | insufficientStock
  | alreadyBooked
  | alreadyProcessed
  | invalidTransition
  | serverError
  deriving DecidableEq, Repr

/-- Result of a borrowing route: the JSON borrowing on success, or an error
response. -/
inductive BResult
  | ok (b : Borrowing)
  | err (e : ApiError)
  deriving DecidableEq, Repr

/-- Result of an equipment route. -/
inductive EResult
  | ok (e : Equipment)
  | err (e : ApiError)
  deriving DecidableEq, Repr

def BResult.isOk : BResult → Bool
  | .ok _ => true
  | .err _ => false

/-- Status filter of the overlapping-booking query in POST /api/borrowings:
`status: { $in: ['approved', 'issued', 'pending'] }`. -/
def overlapStatus (st : BStatus) : Bool :=
  match st with
  | .approved | .issued | .pending => true
  | _ => false

/-- The overlapping-booking query of POST /api/borrowings:
`Borrowing.findOne({equipment, status ∈ {approved,issued,pending},
borrowDate ≤ dueDate, dueDate ≥ now})` is some document. -/
def hasOverlap (l : List (Nat × Borrowing)) (eid : Nat) (dueDate now : Int) : Bool :=
  l.any (fun p =>
    decide (p.2.equipment = eid) && overlapStatus p.2.status &&
    decide (p.2.borrowDate ≤ dueDate) && decide (now ≤ p.2.dueDate))

/-- POST /api/borrowings (server/routes/borrowings.js lines 68-120).
Express-validator rejects `quantity < 1` (the dueDate check is only
`isISO8601`, i.e. a well-formed date, which every integer date models);
a missing or inactive equipment is a single 404; then the handler checks
remaining stock and the overlapping-booking query before inserting a new
`pending` document with `conditionBefore` copied from the equipment and
`borrowDate` defaulted to now. -/
def createReservation (s : Store) (newId userId equipmentId : Nat)
    (quantity dueDate now : Int) : BResult × Store :=
  if quantity < 1 then (.err .validationError, s)
  else
    match findById s.equipments equipmentId with
    | none => (.err .notFound, s)
    | some e =>
      if e.isActive = false then (.err .notFound, s)
      else if e.availableQuantity < quantity then (.err .insufficientStock, s)
      else if hasOverlap s.borrowings equipmentId dueDate now then (.err .alreadyBooked, s)
      else
        let b : Borrowing := {
          user := userId, equipment := equipmentId, quantity := quantity,
          borrowDate := now, dueDate := dueDate, returnDate := none,
          status := .pending, approvedBy := none, approvedAt := none,
          issuedAt := none, conditionBefore := e.condition,
          conditionAfter := none, notes := none, damageReport := none }
        (.ok b, { s with borrowings := (newId, b) :: s.borrowings })

/-- PATCH /api/borrowings/:id/approve (borrowings.js lines 194-227).
404 if the borrowing is unknown; `AlreadyProcessed` if not pending; a
populate of a dangling equipment reference throws (500); otherwise the
stock guard, then the decrement and the status transition. -/
def approve (s : Store) (id approverId : Nat) (now : Int) : BResult × Store :=
  match findById s.borrowings id with
  | none => (.err .notFound, s)
  | some b =>
    if b.status = .pending then
      match findById s.equipments b.equipment with
      | none => (.err .serverError, s)
      | some e =>
        if e.availableQuantity < b.quantity then (.err .insufficientStock, s)
        else
          let e2 := { e with availableQuantity := e.availableQuantity - b.quantity }
          let b2 := { b with
            status := .approved, approvedBy := some approverId,
            approvedAt := some now }
          (.ok b2, {
            equipments := setById s.equipments b.equipment e2,
            borrowings := setById s.borrowings id b2 })
    else (.err .alreadyProcessed, s)

/-- PATCH /api/borrowings/:id/reject (borrowings.js lines 255-280). -/
def reject (s : Store) (id approverId : Nat) (notes : Option String)
    (now : Int) : BResult × Store :=
  match findById s.borrowings id with
  | none => (.err .notFound, s)
  | some b =>
    if b.status = .pending then
      let b2 := { b with
        status := .rejected, approvedBy := some approverId,
        approvedAt := some now,
        notes := some (notes.getD "Request rejected") }
      (.ok b2, { s with borrowings := setById s.borrowings id b2 })
    else (.err .alreadyProcessed, s)

/-- PATCH /api/borrowings/:id/issue (borrowings.js lines 300-321). -/
def issue (s : Store) (id : Nat) (now : Int) : BResult × Store :=
  match findById s.borrowings id with
  | none => (.err .notFound, s)
  | some b =>
    if b.status = .approved then
      let b2 := { b with status := .issued, issuedAt := some now }
      (.ok b2, { s with borrowings := setById s.borrowings id b2 })
    else (.err .invalidTransition, s)

/-- The description string of a damage report built by the return handler. -/
def condStr : Cond → String
  | .excellent => "excellent"
  | .good => "good"
  | .fair => "fair"
  | .poor => "poor"
  | .maintenance => "under_maintenance"

def damageDescription (before after : Cond) : String :=
  "Equipment condition changed from " ++ condStr before ++ " to " ++ condStr after

/-- PATCH /api/borrowings/:id/return (borrowings.js lines 352-391).
Only `issued`/`overdue` may return; the stock release is an unclamped
`availableQuantity += quantity`; recorded `conditionAfter` defaults to
`conditionBefore`; a damage report is attached exactly when the request
body carries a conditionAfter different from `conditionBefore`. -/
def returnItem (s : Store) (id userId : Nat) (conditionAfter : Option Cond)
    (notes : Option String) (now : Int) : BResult × Store :=
  match findById s.borrowings id with
  | none => (.err .notFound, s)
  | some b =>
    if b.status = .issued ∨ b.status = .overdue then
      match findById s.equipments b.equipment with
      | none => (.err .serverError, s)
      | some e =>
        let e2 := { e with availableQuantity := e.availableQuantity + b.quantity }
        let dr : Option DamageReport :=
          match conditionAfter with
          | some c =>
            if c = b.conditionBefore then b.damageReport
            else some {
              description := damageDescription b.conditionBefore c,
              reportedAt := now, reportedBy := userId,
              repairStatus := .reported }
          | none => b.damageReport
        let b2 := { b with
          status := .returned, returnDate := some now,
          conditionAfter := some (conditionAfter.getD b.conditionBefore),
          notes := (match notes with | some n => some n | none => b.notes),
          damageReport := dr }
        (.ok b2, {
          equipments := setById s.equipments b.equipment e2,
          borrowings := setById s.borrowings id b2 })
    else (.err .invalidTransition, s)

/-- POST /api/equipment (server/routes/equipment.js lines 169-201).
Express-validator rejects `quantity < 1`; the handler sets
`availableQuantity: req.body.quantity` explicitly, and the model's isNew
pre-save hook sets the same value. -/
def createEquipment (s : Store) (newId : Nat) (quantity : Int)
    (condition : Cond) : EResult × Store :=
  if quantity < 1 then (.err .validationError, s)
  else
    let e : Equipment := {
      quantity := quantity, availableQuantity := quantity,
      condition := condition, isActive := true }
    (.ok e, { s with equipments := (newId, e) :: s.equipments })

/-- PUT /api/equipment/:id (equipment.js lines 227-253).
The handler strips `availableQuantity` from the body and calls
`findByIdAndUpdate(id, updateData, { new: true, runValidators: true })`.
`findByIdAndUpdate` is a query update: it does NOT run the document
pre('save') hooks of the Equipment model, so a quantity edit leaves
`availableQuantity` untouched; `runValidators` enforces `min: 0` on a
supplied quantity. -/
def updateEquipment (s : Store) (id : Nat) (newQuantity : Option Int)
    (newCondition : Option Cond) (newIsActive : Option Bool) : EResult × Store :=
  match findById s.equipments id with
  | none => (.err .notFound, s)
  | some e =>
    match newQuantity with
    | some q =>
      if q < 0 then (.err .validationError, s)
      else
        let e2 := { e with
          quantity := q,
          condition := newCondition.getD e.condition,
          isActive := newIsActive.getD e.isActive }
        (.ok e2, { s with equipments := setById s.equipments id e2 })
    | none =>
      let e2 := { e with
        condition := newCondition.getD e.condition,
        isActive := newIsActive.getD e.isActive }
      (.ok e2, { s with equipments := setById s.equipments id e2 })

/-- DELETE /api/equipment/:id (equipment.js lines 273-290): soft delete by
`findByIdAndUpdate(id, { isActive: false })`. -/
def deleteEquipment (s : Store) (id : Nat) : EResult × Store :=
  match findById s.equipments id with
  | none => (.err .notFound, s)
  | some e =>
    let e2 := { e with isActive := false }
    (.ok e2, { s with equipments := setById s.equipments id e2 })

/-- The per-document effect of the 'save' middleware chain of the Equipment
model on a non-new document whose `quantity` field was modified
(server/models/Equipment.js, the two pre('save') hooks).  The first hook
reads `this._originalQuantity || this.quantity`; `orig` is the value of the
transient `_originalQuantity` when the hook runs.  The second hook (which
runs after the first) is the only writer of `_originalQuantity`, and it
assigns `this.quantity` — the already-updated value — so on any actual
save `orig` is `none` and the computed delta is `0`. -/
def preSaveQuantityAdjust (orig : Option Int) (e : Equipment) : Equipment :=
  let oldQuantity := orig.getD e.quantity
  let quantityDiff := e.quantity - oldQuantity
  { e with availableQuantity := max 0 (e.availableQuantity + quantityDiff) }

/-- The per-borrowing effect of sweep A
(server/utils/overdueChecker.js, `checkOverdueBorrowings` query:
`status ∈ {approved, issued}`, `dueDate < now`, `returnDate` unset). -/
def overdueUpdate (now : Int) (b : Borrowing) : Borrowing :=
  if (b.status = .approved ∨ b.status = .issued) ∧ b.dueDate < now ∧
      b.returnDate = none then
    { b with status := .overdue }
  else b

/-- Sweep A: `checkOverdueBorrowings` (overdueChecker.js lines 4-24). -/
def checkOverdueBorrowings (s : Store) (now : Int) : Store :=
  { s with borrowings := s.borrowings.map (fun p => (p.1, overdueUpdate now p.2)) }

/-- Membership of a status in the active set
`{ $in: ['approved', 'issued', 'overdue'] }` used by the reconciler. -/
def isActiveStatus (st : BStatus) : Bool :=
  match st with
  | .approved | .issued | .overdue => true
  | _ => false

/-- Contribution of one borrowing document to the reconciler's
`borrowedQuantity` sum for equipment `eid`. -/
def bContrib (eid : Nat) (b : Borrowing) : Int :=
  if b.equipment = eid ∧ isActiveStatus b.status = true then b.quantity else 0

/-- The reconciler's `reduce((sum, b) => sum + b.quantity, 0)` over
`Borrowing.find({ equipment: eid, status: { $in: [...] } })`. -/
def activeSum (l : List (Nat × Borrowing)) (eid : Nat) : Int :=
  (l.map (fun p => bContrib eid p.2)).sum

/-- The per-equipment effect of sweep B:
`availableQuantity = Math.max(0, equipment.quantity - borrowedQuantity)`,
applied to every equipment with `isActive: true`. -/
def reconcileEquipment (borrowings : List (Nat × Borrowing)) (eid : Nat)
    (e : Equipment) : Equipment :=
  if e.isActive then
    { e with availableQuantity := max 0 (e.quantity - activeSum borrowings eid) }
  else e

/-- Sweep B: `updateEquipmentAvailability` (overdueChecker.js lines 26-48). -/
def updateEquipmentAvailability (s : Store) : Store :=
  { s with equipments :=
      s.equipments.map (fun p => (p.1, reconcileEquipment s.borrowings p.1 p.2)) }

/-- One tick of the scheduled reconciler (server/index.js): sweep A then
sweep B. -/
def runSweep (s : Store) (now : Int) : Store :=
  updateEquipmentAvailability (checkOverdueBorrowings s now)

/-- Second registration of PATCH /api/borrowings/:id/approve
(borrowings.js lines 412-446), transcribed separately from its own body;
Express never dispatches to it because the first registration matches
first. -/
def approveDup (s : Store) (id approverId : Nat) (now : Int) : BResult × Store :=
  match findById s.borrowings id with
  | none => (.err .notFound, s)
  | some b =>
    if b.status = .pending then
      match findById s.equipments b.equipment with
      | none => (.err .serverError, s)
      | some e =>
        if e.availableQuantity < b.quantity then (.err .insufficientStock, s)
        else
          let e2 := { e with availableQuantity := e.availableQuantity - b.quantity }
          let b2 := { b with
            status := .approved, approvedBy := some approverId,
            approvedAt := some now }
          (.ok b2, {
            equipments := setById s.equipments b.equipment e2,
            borrowings := setById s.borrowings id b2 })
    else (.err .alreadyProcessed, s)

/-- Second registration of PATCH /api/borrowings/:id/return
(borrowings.js lines 477-516), transcribed separately from its own body. -/
def returnItemDup (s : Store) (id userId : Nat) (conditionAfter : Option Cond)
    (notes : Option String) (now : Int) : BResult × Store :=
  match findById s.borrowings id with
  | none => (.err .notFound, s)
  | some b =>
    if b.status = .issued ∨ b.status = .overdue then
      match findById s.equipments b.equipment with
      | none => (.err .serverError, s)
      | some e =>
        let e2 := { e with availableQuantity := e.availableQuantity + b.quantity }
        let dr : Option DamageReport :=
          match conditionAfter with
          | some c =>
            if c = b.conditionBefore then b.damageReport
            else some {
              description := damageDescription b.conditionBefore c,
              reportedAt := now, reportedBy := userId,
              repairStatus := .reported }
          | none => b.damageReport
        let b2 := { b with
          status := .returned, returnDate := some now,
          conditionAfter := some (conditionAfter.getD b.conditionBefore),
          notes := (match notes with | some n => some n | none => b.notes),
          damageReport := dr }
        (.ok b2, {
          equipments := setById s.equipments b.equipment e2,
          borrowings := setById s.borrowings id b2 })
    else (.err .invalidTransition, s)

/-- States reachable from the empty store by the exposed operations.  The
`flag` selects whether equipment updates may edit `quantity` (`true`) or
not (`false`); fresh Mongo ObjectIds are reflected as freshness hypotheses
on the two inserting operations. -/
inductive Reach : Bool → Store → Prop
  | init : Reach flag emptyStore
  | stepCreateEq (h : Reach flag s) (hf : findById s.equipments newId = none) :
      Reach flag (createEquipment s newId q c).2
  | stepUpdateEq (h : Reach flag s) (hq : flag = false → nq = none) :
      Reach flag (updateEquipment s eid nq nc na).2
  | stepDeleteEq (h : Reach flag s) :
      Reach flag (deleteEquipment s eid).2
  | stepCreateRes (h : Reach flag s) (hf : findById s.borrowings newId = none) :
      Reach flag (createReservation s newId u eid q d now).2
  | stepApprove (h : Reach flag s) :
      Reach flag (approve s rid a now).2
  | stepReject (h : Reach flag s) :
      Reach flag (reject s rid a n now).2
  | stepIssue (h : Reach flag s) :
      Reach flag (issue s rid now).2
  | stepReturn (h : Reach flag s) :
      Reach flag (returnItem s rid u ca n now).2
  | stepSweep (h : Reach flag s) :
      Reach flag (runSweep s now)

/-- Pairwise-distinct ids, the property Mongo guarantees for `_id` keys. -/
def NodupKeys {α : Type} (l : List (Nat × α)) : Prop :=
  (l.map Prod.fst).Nodup

theorem setById_cons {α : Type} (k2 : Nat) (w : α) (rest : List (Nat × α))
    (k : Nat) (v : α) :
    setById ((k2, w) :: rest) k v =
      (if k2 = k then (k, v) else (k2, w)) :: setById rest k v := rfl

theorem findById_setById_self {α : Type} (l : List (Nat × α)) (k : Nat) (v : α) :
    findById (setById l k v) k = (findById l k).map (fun _ => v) := by
  induction l with
  | nil => simp [findById, setById]
  | cons p rest ih =>
    obtain ⟨k2, w⟩ := p
    by_cases h1 : k2 = k
    · rw [setById_cons, if_pos h1]
      simp [findById, h1]
    · rw [setById_cons, if_neg h1]
      simp [findById, h1, ih]

theorem findById_setById_ne {α : Type} {l : List (Nat × α)} {k j : Nat}
    (h : j ≠ k) (v : α) : findById (setById l k v) j = findById l j := by
  induction l with
  | nil => simp [findById, setById]
  | cons p rest ih =>
    obtain ⟨k2, w⟩ := p
    by_cases h1 : k2 = k
    · rw [setById_cons, if_pos h1]
      have h2 : ¬(k = j) := fun he => h he.symm
      have h3 : ¬(k2 = j) := fun he => h (h1 ▸ he).symm
      simp [findById, h2, h3, ih]
    · rw [setById_cons, if_neg h1]
      by_cases h4 : k2 = j <;> simp [findById, h4, ih]

theorem keys_setById {α : Type} (l : List (Nat × α)) (k : Nat) (v : α) :
    (setById l k v).map Prod.fst = l.map Prod.fst := by
  induction l with
  | nil => rfl
  | cons p rest ih =>
    by_cases h : p.1 = k <;> simp [setById, h, ih] <;>
      simpa [setById] using ih

theorem findById_eq_none {α : Type} (l : List (Nat × α)) (k : Nat) :
    findById l k = none ↔ k ∉ l.map Prod.fst := by
  induction l with
  | nil => simp [findById]
  | cons p rest ih =>
    by_cases h : p.1 = k <;> simp_all [findById, h, eq_comm]

theorem findById_mem {α : Type} {l : List (Nat × α)} {k : Nat} {v : α}
    (h : findById l k = some v) : (k, v) ∈ l := by
  induction l with
  | nil => simp [findById] at h
  | cons p rest ih =>
    obtain ⟨k2, w⟩ := p
    by_cases h1 : k2 = k
    · subst h1
      simp [findById] at h
      subst h
      exact List.mem_cons_self _ _
    · simp [findById, h1] at h
      exact List.mem_cons_of_mem _ (ih h)

theorem findById_of_mem {α : Type} {l : List (Nat × α)} {k : Nat} {v : α}
    (hnd : NodupKeys l) (hm : (k, v) ∈ l) : findById l k = some v := by
  induction l with
  | nil => simp at hm
  | cons p rest ih =>
    simp only [NodupKeys, List.map_cons, List.nodup_cons] at hnd
    rcases List.mem_cons.mp hm with h | h
    · simp [findById, ← h]
    · have hk : k ∈ rest.map Prod.fst :=
        List.mem_map.mpr ⟨(k, v), h, rfl⟩
      have hne : p.1 ≠ k := fun he => hnd.1 (he ▸ hk)
      simp only [findById, if_neg hne]
      exact ih hnd.2 h

theorem findById_map {α β : Type} (l : List (Nat × α)) (f : Nat → α → β) (k : Nat) :
    findById (l.map (fun p => (p.1, f p.1 p.2))) k = (findById l k).map (f k) := by
  induction l with
  | nil => rfl
  | cons p rest ih =>
    by_cases h : p.1 = k
    · subst h; simp [findById, List.map_cons]
    · simp [findById, List.map_cons, h, ih]

theorem setById_of_none {α : Type} {l : List (Nat × α)} {k : Nat}
    (h : findById l k = none) (v : α) : setById l k v = l := by
  induction l with
  | nil => rfl
  | cons p rest ih =>
    by_cases h1 : p.1 = k <;> simp_all [findById, setById]

theorem activeSum_cons (k : Nat) (b : Borrowing) (l : List (Nat × Borrowing))
    (eid : Nat) : activeSum ((k, b) :: l) eid = bContrib eid b + activeSum l eid := by
  simp [activeSum]

theorem activeSum_setById {l : List (Nat × Borrowing)} {rid : Nat} {b : Borrowing}
    (hnd : NodupKeys l) (hf : findById l rid = some b) (b2 : Borrowing) (eid : Nat) :
    activeSum (setById l rid b2) eid =
      activeSum l eid - bContrib eid b + bContrib eid b2 := by
  induction l with
  | nil => simp [findById] at hf
  | cons p rest ih =>
    obtain ⟨k, w⟩ := p
    simp only [NodupKeys, List.map_cons, List.nodup_cons] at hnd
    by_cases h1 : k = rid
    · subst h1
      simp [findById] at hf
      subst hf
      have hrest : findById rest k = none :=
        (findById_eq_none rest k).mpr hnd.1
      rw [setById_cons, if_pos rfl, setById_of_none hrest, activeSum_cons,
        activeSum_cons]
      ring
    · simp only [findById, if_neg h1] at hf
      rw [setById_cons, if_neg h1, activeSum_cons, activeSum_cons, ih hnd.2 hf]
      ring

theorem bContrib_nonneg {eid : Nat} {b : Borrowing} (h : 1 ≤ b.quantity) :
    0 ≤ bContrib eid b := by
  unfold bContrib; split <;> omega

theorem activeSum_nonneg {l : List (Nat × Borrowing)}
    (h : ∀ p ∈ l, 1 ≤ p.2.quantity) (eid : Nat) : 0 ≤ activeSum l eid := by
  induction l with
  | nil => simp [activeSum]
  | cons p rest ih =>
    obtain ⟨k, w⟩ := p
    rw [activeSum_cons]
    have h1 : 0 ≤ bContrib eid w := bContrib_nonneg (h (k, w) (by simp))
    have h2 := ih (fun q hq => h q (by simp [hq]))
    omega

theorem activeSum_of_no_ref {l : List (Nat × Borrowing)} {eid : Nat}
    (h : ∀ p ∈ l, p.2.equipment ≠ eid) : activeSum l eid = 0 := by
  induction l with
  | nil => simp [activeSum]
  | cons p rest ih =>
    rw [activeSum_cons, ih (fun q hq => h q (by simp [hq]))]
    have : bContrib eid p.2 = 0 := by
      unfold bContrib
      have := h p (by simp)
      simp [this]
    omega

theorem bContrib_overdueUpdate (now : Int) (eid : Nat) (b : Borrowing) :
    bContrib eid (overdueUpdate now b) = bContrib eid b := by
  unfold overdueUpdate
  split
  · rename_i hcond
    unfold bContrib isActiveStatus
    rcases hcond.1 with h | h <;> simp [h]
  · rfl

theorem activeSum_overdue (l : List (Nat × Borrowing)) (now : Int) (eid : Nat) :
    activeSum (l.map (fun p => (p.1, overdueUpdate now p.2))) eid = activeSum l eid := by
  unfold activeSum
  rw [List.map_map]
  congr 1
  apply List.map_congr_left
  intro p _
  simp [bContrib_overdueUpdate]

/-- `approve` either leaves the store unchanged (an error response) or
performs exactly the guarded decrement and status transition. -/
theorem approve_cases (s : Store) (rid a : Nat) (now : Int) :
    (approve s rid a now).2 = s ∨
    ∃ b e, findById s.borrowings rid = some b ∧ b.status = .pending ∧
      findById s.equipments b.equipment = some e ∧ b.quantity ≤ e.availableQuantity ∧
      (approve s rid a now).2 = {
        equipments := setById s.equipments b.equipment
          { e with availableQuantity := e.availableQuantity - b.quantity },
        borrowings := setById s.borrowings rid
          { b with
              status := .approved, approvedBy := some a,
              approvedAt := some now } } := by
  unfold approve
  cases hb : findById s.borrowings rid with
  | none => exact Or.inl rfl
  | some b =>
    dsimp only
    by_cases hs : b.status = BStatus.pending
    · rw [if_pos hs]
      cases he : findById s.equipments b.equipment with
      | none => exact Or.inl rfl
      | some e =>
        dsimp only
        by_cases hq : e.availableQuantity < b.quantity
        · rw [if_pos hq]; exact Or.inl rfl
        · rw [if_neg hq]
          exact Or.inr ⟨b, e, rfl, hs, he, by omega, rfl⟩
    · rw [if_neg hs]; exact Or.inl rfl

/-- `createReservation` either leaves the store unchanged or inserts a
fresh pending document. -/
theorem createReservation_cases (s : Store) (nid u eid : Nat) (q d now : Int) :
    (createReservation s nid u eid q d now).2 = s ∨
    ∃ e, 1 ≤ q ∧ findById s.equipments eid = some e ∧
      (createReservation s nid u eid q d now).2 =
        { s with borrowings := (nid,
            { user := u, equipment := eid, quantity := q, borrowDate := now,
              dueDate := d, returnDate := none, status := .pending,
              approvedBy := none, approvedAt := none, issuedAt := none,
              conditionBefore := e.condition, conditionAfter := none,
              notes := none, damageReport := none }) :: s.borrowings } := by
  unfold createReservation
  by_cases hq : q < 1
  · rw [if_pos hq]; exact Or.inl rfl
  · rw [if_neg hq]
    cases he : findById s.equipments eid with
    | none => exact Or.inl rfl
    | some e =>
      dsimp only
      by_cases ha : e.isActive = false
      · rw [if_pos ha]; exact Or.inl rfl
      · rw [if_neg ha]
        by_cases hs : e.availableQuantity < q
        · rw [if_pos hs]; exact Or.inl rfl
        · rw [if_neg hs]
          by_cases ho : hasOverlap s.borrowings eid d now
          · rw [if_pos ho]; exact Or.inl rfl
          · rw [if_neg ho]
            exact Or.inr ⟨e, by omega, rfl, rfl⟩

/-- `reject` either leaves the store unchanged or performs exactly the
pending-to-rejected transition. -/
theorem reject_cases (s : Store) (rid a : Nat) (n : Option String) (now : Int) :
    (reject s rid a n now).2 = s ∨
    ∃ b, findById s.borrowings rid = some b ∧ b.status = .pending ∧
      (reject s rid a n now).2 =
        { s with borrowings := (setById s.borrowings rid
            { b with
                status := .rejected, approvedBy := some a,
                approvedAt := some now,
                notes := some (n.getD "Request rejected") }) } := by
  unfold reject
  cases hb : findById s.borrowings rid with
  | none => exact Or.inl rfl
  | some b =>
    dsimp only
    by_cases hs : b.status = BStatus.pending
    · rw [if_pos hs]
      exact Or.inr ⟨b, rfl, hs, rfl⟩
    · rw [if_neg hs]; exact Or.inl rfl

/-- `issue` either leaves the store unchanged or performs exactly the
approved-to-issued transition. -/
theorem issue_cases (s : Store) (rid : Nat) (now : Int) :
    (issue s rid now).2 = s ∨
    ∃ b, findById s.borrowings rid = some b ∧ b.status = .approved ∧
      (issue s rid now).2 =
        { s with borrowings := (setById s.borrowings rid
            { b with status := .issued, issuedAt := some now }) } := by
  unfold issue
  cases hb : findById s.borrowings rid with
  | none => exact Or.inl rfl
  | some b =>
    dsimp only
    by_cases hs : b.status = BStatus.approved
    · rw [if_pos hs]
      exact Or.inr ⟨b, rfl, hs, rfl⟩
    · rw [if_neg hs]; exact Or.inl rfl

/-- The borrowing document written by a successful return. -/
def returnedBorrowing (b : Borrowing) (userId : Nat) (conditionAfter : Option Cond)
    (notes : Option String) (now : Int) : Borrowing :=
  { b with
    status := .returned, returnDate := some now,
    conditionAfter := some (conditionAfter.getD b.conditionBefore),
    notes := (match notes with | some n => some n | none => b.notes),
    damageReport :=
      match conditionAfter with
      | some c =>
        if c = b.conditionBefore then b.damageReport
        else some {
          description := damageDescription b.conditionBefore c,
          reportedAt := now, reportedBy := userId,
          repairStatus := .reported }
      | none => b.damageReport }

/-- `returnItem` either leaves the store unchanged or performs exactly the
unclamped release together with the transition to `returned`. -/
theorem returnItem_cases (s : Store) (rid u : Nat) (ca : Option Cond)
    (n : Option String) (now : Int) :
    (returnItem s rid u ca n now).2 = s ∨
    ∃ b e, findById s.borrowings rid = some b ∧
      (b.status = .issued ∨ b.status = .overdue) ∧
      findById s.equipments b.equipment = some e ∧
      (returnItem s rid u ca n now).2 = {
        equipments := setById s.equipments b.equipment
          { e with availableQuantity := e.availableQuantity + b.quantity },
        borrowings := setById s.borrowings rid (returnedBorrowing b u ca n now) } := by
  unfold returnItem
  cases hb : findById s.borrowings rid with
  | none => exact Or.inl rfl
  | some b =>
    dsimp only
    by_cases hs : b.status = BStatus.issued ∨ b.status = BStatus.overdue
    · rw [if_pos hs]
      cases he : findById s.equipments b.equipment with
      | none => exact Or.inl rfl
      | some e =>
        exact Or.inr ⟨b, e, rfl, hs, he, rfl⟩
    · rw [if_neg hs]; exact Or.inl rfl

/-- `createEquipment` either leaves the store unchanged or inserts a fresh
equipment with `availableQuantity = quantity ≥ 1`. -/
theorem createEquipment_cases (s : Store) (nid : Nat) (q : Int) (c : Cond) :
    (createEquipment s nid q c).2 = s ∨
    (1 ≤ q ∧ (createEquipment s nid q c).2 =
      { s with equipments := (nid,
          { quantity := q, availableQuantity := q, condition := c,
            isActive := true }) :: s.equipments }) := by
  unfold createEquipment
  by_cases hq : q < 1
  · rw [if_pos hq]; exact Or.inl rfl
  · rw [if_neg hq]; exact Or.inr ⟨by omega, rfl⟩

/-- `updateEquipment` either leaves the store unchanged or overwrites the
metadata fields (and possibly `quantity`) of one equipment, never touching
`availableQuantity`. -/
theorem updateEquipment_cases (s : Store) (eid : Nat) (nq : Option Int)
    (nc : Option Cond) (na : Option Bool) :
    (updateEquipment s eid nq nc na).2 = s ∨
    ∃ e, findById s.equipments eid = some e ∧
      ((nq = none ∧ (updateEquipment s eid nq nc na).2 =
          { s with equipments := (setById s.equipments eid
              { e with
                  condition := nc.getD e.condition,
                  isActive := na.getD e.isActive }) }) ∨
       (∃ q, nq = some q ∧ 0 ≤ q ∧ (updateEquipment s eid nq nc na).2 =
          { s with equipments := (setById s.equipments eid
              { e with
                  quantity := q,
                  condition := nc.getD e.condition,
                  isActive := na.getD e.isActive }) })) := by
  unfold updateEquipment
  cases he : findById s.equipments eid with
  | none => exact Or.inl rfl
  | some e =>
    dsimp only
    cases nq with
    | none => exact Or.inr ⟨e, rfl, Or.inl ⟨rfl, rfl⟩⟩
    | some q =>
      dsimp only
      by_cases hq : q < 0
      · rw [if_pos hq]; exact Or.inl rfl
      · rw [if_neg hq]
        exact Or.inr ⟨e, rfl, Or.inr ⟨q, rfl, by omega, rfl⟩⟩

/-- `deleteEquipment` either leaves the store unchanged or flips exactly
one `isActive` flag. -/
theorem deleteEquipment_cases (s : Store) (eid : Nat) :
    (deleteEquipment s eid).2 = s ∨
    ∃ e, findById s.equipments eid = some e ∧
      (deleteEquipment s eid).2 =
        { s with equipments := (setById s.equipments eid
            { e with isActive := false }) } := by
  unfold deleteEquipment
  cases he : findById s.equipments eid with
  | none => exact Or.inl rfl
  | some e => exact Or.inr ⟨e, rfl, rfl⟩

/-- The damage-report discipline a single borrowing document satisfies in
every reachable state: a report is present exactly on a returned borrowing
whose recorded condition changed, and any present report is `reported`. -/
def DamageOk (b : Borrowing) : Prop :=
  (b.damageReport.isSome = true ↔
    (b.status = .returned ∧ ∃ c, b.conditionAfter = some c ∧ c ≠ b.conditionBefore))
  ∧ ∀ d, b.damageReport = some d → d.repairStatus = .reported

/-- Structural facts every stored borrowing satisfies. -/
def BorrowOk (s : Store) (b : Borrowing) : Prop :=
  1 ≤ b.quantity ∧ (findById s.equipments b.equipment).isSome = true ∧ DamageOk b

/-- Well-formedness of a store: Mongo-unique ids plus per-borrowing facts. -/
def WF (s : Store) : Prop :=
  NodupKeys s.equipments ∧ NodupKeys s.borrowings ∧
  ∀ p ∈ s.borrowings, BorrowOk s p.2

/-- The ledger equation: every stored equipment's availableQuantity equals
its quantity minus the committed (active) reservation total, and is
nonnegative. -/
def LedgerOk (s : Store) : Prop :=
  ∀ p ∈ s.equipments,
    p.2.availableQuantity = p.2.quantity - activeSum s.borrowings p.1 ∧
    0 ≤ p.2.availableQuantity

theorem findById_setById_isSome {α : Type} (l : List (Nat × α)) (k j : Nat) (v : α) :
    (findById (setById l k v) j).isSome = (findById l j).isSome := by
  by_cases h : j = k
  · subst h
    rw [findById_setById_self]
    cases findById l j <;> rfl
  · rw [findById_setById_ne h]

theorem nodupKeys_setById {α : Type} {l : List (Nat × α)} (h : NodupKeys l)
    (k : Nat) (v : α) : NodupKeys (setById l k v) := by
  unfold NodupKeys
  rw [keys_setById]
  exact h

theorem nodupKeys_cons {α : Type} {l : List (Nat × α)} {k : Nat}
    (hf : findById l k = none) (h : NodupKeys l) (v : α) :
    NodupKeys ((k, v) :: l) := by
  unfold NodupKeys at h ⊢
  simp only [List.map_cons, List.nodup_cons]
  exact ⟨(findById_eq_none l k).mp hf, h⟩

theorem nodupKeys_mapVal {α β : Type} (l : List (Nat × α)) (f : Nat → α → β)
    (h : NodupKeys l) : NodupKeys (l.map (fun p => (p.1, f p.1 p.2))) := by
  unfold NodupKeys at h ⊢
  rw [List.map_map]
  have : (Prod.fst ∘ fun p : Nat × α => (p.1, f p.1 p.2)) = Prod.fst := by
    funext p; rfl
  rw [this]
  exact h

theorem findById_of_pair_mem {α : Type} {l : List (Nat × α)} {q : Nat × α}
    (hnd : NodupKeys l) (hm : q ∈ l) : findById l q.1 = some q.2 := by
  have : (q.1, q.2) ∈ l := by simpa using hm
  exact findById_of_mem hnd this

theorem bContrib_of_inactive {eid : Nat} {b : Borrowing}
    (h : isActiveStatus b.status = false) : bContrib eid b = 0 := by
  unfold bContrib
  rw [if_neg]
  rintro ⟨-, h2⟩
  rw [h] at h2
  cases h2

theorem bContrib_of_ne {eid : Nat} {b : Borrowing} (h : b.equipment ≠ eid) :
    bContrib eid b = 0 := by
  unfold bContrib
  rw [if_neg]
  rintro ⟨h1, -⟩
  exact h h1

theorem bContrib_active {eid : Nat} {b : Borrowing} (h1 : b.equipment = eid)
    (h2 : isActiveStatus b.status = true) : bContrib eid b = b.quantity := by
  unfold bContrib
  rw [if_pos ⟨h1, h2⟩]

theorem damageOk_none_of_not_returned {b : Borrowing} (hd : DamageOk b)
    (h : b.status ≠ .returned) : b.damageReport = none := by
  rcases hd with ⟨hiff, -⟩
  cases hdr : b.damageReport with
  | none => rfl
  | some d =>
    rw [hdr] at hiff
    exact absurd (hiff.mp rfl).1 h

theorem damageOk_of_none {b : Borrowing} (h1 : b.damageReport = none)
    (h2 : b.status ≠ .returned) : DamageOk b := by
  constructor
  · rw [h1]
    constructor
    · intro h; cases h
    · rintro ⟨hret, -⟩; exact absurd hret h2
  · intro d hd
    rw [h1] at hd
    cases hd

theorem WF_approve {s : Store} {b : Borrowing} {e : Equipment} {rid a : Nat}
    {now : Int} (hwf : WF s) (hb : findById s.borrowings rid = some b)
    (hs : b.status = .pending) (he : findById s.equipments b.equipment = some e) :
    WF {
      equipments := setById s.equipments b.equipment
        { e with availableQuantity := e.availableQuantity - b.quantity },
      borrowings := setById s.borrowings rid
        { b with
            status := .approved, approvedBy := some a,
            approvedAt := some now } } := by
  obtain ⟨hndE, hndB, hbo⟩ := hwf
  refine ⟨nodupKeys_setById hndE _ _, nodupKeys_setById hndB _ _, ?_⟩
  intro p hp
  rcases List.mem_map.mp hp with ⟨q, hq, hpq⟩
  subst hpq
  have hqo := hbo q hq
  by_cases hqr : q.1 = rid
  · have hq2 : q.2 = b := by
      have := findById_of_pair_mem hndB hq
      rw [hqr, hb] at this
      exact Option.some.injEq _ _ ▸ this.symm ▸ rfl
    rw [if_pos hqr]
    refine ⟨?_, ?_, ?_⟩
    · simpa using hq2 ▸ hqo.1
    · simp only
      rw [findById_setById_isSome]
      simpa using hq2 ▸ hqo.2.1
    · apply damageOk_of_none
      · have hdn : b.damageReport = none :=
          damageOk_none_of_not_returned (hq2 ▸ hqo.2.2)
            (by rw [hs]; intro h; cases h)
        simpa using hdn
      · intro h; cases h
  · rw [if_neg hqr]
    refine ⟨hqo.1, ?_, hqo.2.2⟩
    rw [findById_setById_isSome]
    exact hqo.2.1

theorem LedgerOk_approve {s : Store} {b : Borrowing} {e : Equipment}
    {rid a : Nat} {now : Int} (hwf : WF s) (hlg : LedgerOk s)
    (hb : findById s.borrowings rid = some b) (hs : b.status = .pending)
    (he : findById s.equipments b.equipment = some e)
    (hq : b.quantity ≤ e.availableQuantity) :
    LedgerOk {
      equipments := setById s.equipments b.equipment
        { e with availableQuantity := e.availableQuantity - b.quantity },
      borrowings := setById s.borrowings rid
        { b with
            status := .approved, approvedBy := some a,
            approvedAt := some now } } := by
  obtain ⟨hndE, hndB, hbo⟩ := hwf
  intro p hp
  rcases List.mem_map.mp hp with ⟨q, hqm, hpq⟩
  subst hpq
  have hsum : ∀ eid, activeSum (setById s.borrowings rid
      { b with
          status := .approved, approvedBy := some a,
          approvedAt := some now }) eid =
      activeSum s.borrowings eid - bContrib eid b +
        bContrib eid { b with
          status := .approved, approvedBy := some a,
          approvedAt := some now } :=
    fun eid => activeSum_setById hndB hb _ eid
  have hqo := hlg q hqm
  by_cases hqe : q.1 = b.equipment
  · have hq2 : q.2 = e := by
      have := findById_of_pair_mem hndE hqm
      rw [hqe, he] at this
      exact Option.some.injEq _ _ ▸ this.symm ▸ rfl
    rw [if_pos hqe]
    simp only
    rw [hsum b.equipment]
    have hz : bContrib b.equipment b = 0 :=
      bContrib_of_inactive (by rw [hs]; rfl)
    have ha : bContrib b.equipment { b with
        status := .approved, approvedBy := some a,
        approvedAt := some now } = b.quantity :=
      bContrib_active rfl rfl
    rw [hz, ha]
    rw [hqe, hq2] at hqo
    constructor
    · omega
    · omega
  · rw [if_neg hqe]
    rw [hsum q.1]
    have hz1 : bContrib q.1 b = 0 :=
      bContrib_of_ne (fun h => hqe h.symm)
    have hz2 : bContrib q.1 { b with
        status := .approved, approvedBy := some a,
        approvedAt := some now } = 0 :=
      bContrib_of_ne (fun h => hqe h.symm)
    rw [hz1, hz2]
    constructor
    · omega
    · exact hqo.2

theorem findById_cons_isSome {α : Type} {l : List (Nat × α)} {j : Nat}
    (h : (findById l j).isSome = true) (k : Nat) (v : α) :
    (findById ((k, v) :: l) j).isSome = true := by
  by_cases hk : k = j <;> simp [findById, hk, h]

/-- Replacing one equipment document preserves well-formedness whatever the
new field values are. -/
theorem WF_setEquip {s : Store} (hwf : WF s) (eid : Nat) (e2 : Equipment) :
    WF { s with equipments := setById s.equipments eid e2 } := by
  obtain ⟨hndE, hndB, hbo⟩ := hwf
  refine ⟨nodupKeys_setById hndE _ _, hndB, ?_⟩
  intro p hp
  have hqo := hbo p hp
  refine ⟨hqo.1, ?_, hqo.2.2⟩
  simp only
  rw [findById_setById_isSome]
  exact hqo.2.1

/-- Replacing one equipment document without touching its quantity and
availableQuantity preserves the ledger equation. -/
theorem LedgerOk_setEquip {s : Store} {eid : Nat} {e e2 : Equipment}
    (hwf : WF s) (hlg : LedgerOk s) (he : findById s.equipments eid = some e)
    (hav : e2.availableQuantity = e.availableQuantity)
    (hqt : e2.quantity = e.quantity) :
    LedgerOk { s with equipments := setById s.equipments eid e2 } := by
  obtain ⟨hndE, hndB, hbo⟩ := hwf
  intro p hp
  rcases List.mem_map.mp hp with ⟨q, hqm, hpq⟩
  subst hpq
  have hqo := hlg q hqm
  by_cases hqe : q.1 = eid
  · have hq2 : q.2 = e := by
      have := findById_of_pair_mem hndE hqm
      rw [hqe, he] at this
      exact Option.some.injEq _ _ ▸ this.symm ▸ rfl
    rw [if_pos hqe]
    simp only
    rw [hav, hqt]
    rw [hq2, hqe] at hqo
    exact hqo
  · rw [if_neg hqe]
    exact hqo

/-- Replacing one borrowing document with one of equal quantity, equal
equipment reference and a lawful damage report preserves well-formedness. -/
theorem WF_setBorrow {s : Store} {rid : Nat} {b b2 : Borrowing} (hwf : WF s)
    (hb : findById s.borrowings rid = some b)
    (hq : b2.quantity = b.quantity) (heq : b2.equipment = b.equipment)
    (hd : DamageOk b2) :
    WF { s with borrowings := setById s.borrowings rid b2 } := by
  obtain ⟨hndE, hndB, hbo⟩ := hwf
  refine ⟨hndE, nodupKeys_setById hndB _ _, ?_⟩
  intro p hp
  rcases List.mem_map.mp hp with ⟨q, hqm, hpq⟩
  subst hpq
  have hqo := hbo q hqm
  by_cases hqr : q.1 = rid
  · have hq2 : q.2 = b := by
      have := findById_of_pair_mem hndB hqm
      rw [hqr, hb] at this
      exact Option.some.injEq _ _ ▸ this.symm ▸ rfl
    rw [if_pos hqr]
    refine ⟨?_, ?_, hd⟩
    · rw [hq, ← hq2]; exact hqo.1
    · simp only
      rw [heq, ← hq2]
      exact hqo.2.1
  · rw [if_neg hqr]
    exact hqo

/-- Replacing one borrowing document without changing its contribution to
any equipment's active sum preserves the ledger equation. -/
theorem LedgerOk_setBorrow {s : Store} {rid : Nat} {b b2 : Borrowing}
    (hwf : WF s) (hlg : LedgerOk s)
    (hb : findById s.borrowings rid = some b)
    (hc : ∀ eid, bContrib eid b2 = bContrib eid b) :
    LedgerOk { s with borrowings := setById s.borrowings rid b2 } := by
  obtain ⟨hndE, hndB, hbo⟩ := hwf
  intro p hp
  have hqo := hlg p hp
  have hsum := activeSum_setById hndB hb b2 p.1
  simp only
  rw [hsum, hc p.1]
  constructor
  · have := hqo.1
    omega
  · exact hqo.2

/-- Inserting a fresh borrowing that satisfies the per-borrowing facts
preserves well-formedness. -/
theorem WF_consBorrow {s : Store} {nid : Nat} {bNew : Borrowing} (hwf : WF s)
    (hf : findById s.borrowings nid = none) (hbn : BorrowOk s bNew) :
    WF { s with borrowings := (nid, bNew) :: s.borrowings } := by
  obtain ⟨hndE, hndB, hbo⟩ := hwf
  refine ⟨hndE, nodupKeys_cons hf hndB _, ?_⟩
  intro p hp
  rcases List.mem_cons.mp hp with h | h
  · subst h
    exact hbn
  · exact hbo p h

/-- Inserting a borrowing with zero active contribution preserves the
ledger equation. -/
theorem LedgerOk_consBorrow {s : Store} {nid : Nat} {bNew : Borrowing}
    (hlg : LedgerOk s) (hz : ∀ eid, bContrib eid bNew = 0) :
    LedgerOk { s with borrowings := (nid, bNew) :: s.borrowings } := by
  intro p hp
  have hqo := hlg p hp
  simp only
  rw [activeSum_cons, hz p.1]
  constructor
  · have := hqo.1
    omega
  · exact hqo.2

/-- Inserting a fresh equipment preserves well-formedness. -/
theorem WF_consEquip {s : Store} {nid : Nat} {e2 : Equipment} (hwf : WF s)
    (hf : findById s.equipments nid = none) :
    WF { s with equipments := (nid, e2) :: s.equipments } := by
  obtain ⟨hndE, hndB, hbo⟩ := hwf
  refine ⟨nodupKeys_cons hf hndE _, hndB, ?_⟩
  intro p hp
  have hqo := hbo p hp
  exact ⟨hqo.1, findById_cons_isSome hqo.2.1 _ _, hqo.2.2⟩

/-- Inserting a fresh equipment with `availableQuantity = quantity ≥ 0`
preserves the ledger equation: no borrowing can reference the fresh id. -/
theorem LedgerOk_consEquip {s : Store} {nid : Nat} {e2 : Equipment}
    (hwf : WF s) (hlg : LedgerOk s) (hf : findById s.equipments nid = none)
    (hav : e2.availableQuantity = e2.quantity) (hnn : 0 ≤ e2.availableQuantity) :
    LedgerOk { s with equipments := (nid, e2) :: s.equipments } := by
  obtain ⟨hndE, hndB, hbo⟩ := hwf
  intro p hp
  rcases List.mem_cons.mp hp with h | h
  · subst h
    simp only
    have hz : activeSum s.borrowings nid = 0 := by
      apply activeSum_of_no_ref
      intro q hq hcontra
      have := (hbo q hq).2.1
      rw [hcontra, hf] at this
      cases this
    rw [hz, hav]
    exact ⟨by omega, hav ▸ hnn⟩
  · have hqo := hlg p h
    exact hqo

theorem returnedBorrowing_quantity (b : Borrowing) (u : Nat) (ca : Option Cond)
    (n : Option String) (now : Int) :
    (returnedBorrowing b u ca n now).quantity = b.quantity := rfl

theorem returnedBorrowing_equipment (b : Borrowing) (u : Nat) (ca : Option Cond)
    (n : Option String) (now : Int) :
    (returnedBorrowing b u ca n now).equipment = b.equipment := rfl

theorem returnedBorrowing_status (b : Borrowing) (u : Nat) (ca : Option Cond)
    (n : Option String) (now : Int) :
    (returnedBorrowing b u ca n now).status = .returned := rfl

theorem returnedBorrowing_conditionBefore (b : Borrowing) (u : Nat)
    (ca : Option Cond) (n : Option String) (now : Int) :
    (returnedBorrowing b u ca n now).conditionBefore = b.conditionBefore := rfl

theorem returnedBorrowing_conditionAfter (b : Borrowing) (u : Nat)
    (ca : Option Cond) (n : Option String) (now : Int) :
    (returnedBorrowing b u ca n now).conditionAfter =
      some (ca.getD b.conditionBefore) := rfl

theorem returnedBorrowing_damageReport (b : Borrowing) (u : Nat)
    (ca : Option Cond) (n : Option String) (now : Int) :
    (returnedBorrowing b u ca n now).damageReport =
      match ca with
      | some c =>
        if c = b.conditionBefore then b.damageReport
        else some {
          description := damageDescription b.conditionBefore c,
          reportedAt := now, reportedBy := u,
          repairStatus := .reported }
      | none => b.damageReport := rfl

/-- The borrowing written by a successful return satisfies the damage-report
discipline, provided it carried no report before (as every non-returned
borrowing does). -/
theorem damageOk_returnedBorrowing {b : Borrowing} (hd : b.damageReport = none)
    (u : Nat) (ca : Option Cond) (n : Option String) (now : Int) :
    DamageOk (returnedBorrowing b u ca n now) := by
  constructor
  · rw [returnedBorrowing_damageReport, returnedBorrowing_conditionAfter,
      returnedBorrowing_status, returnedBorrowing_conditionBefore]
    cases ca with
    | none => simp [hd]
    | some c =>
      by_cases hc : c = b.conditionBefore
      · simp [hc, hd]
      · simp [hc]
  · intro d hdm
    rw [returnedBorrowing_damageReport] at hdm
    cases ca with
    | none =>
      rw [hd] at hdm
      cases hdm
    | some c =>
      dsimp only at hdm
      by_cases hc : c = b.conditionBefore
      · rw [if_pos hc, hd] at hdm
        cases hdm
      · rw [if_neg hc] at hdm
        simp only [Option.some.injEq] at hdm
        rw [← hdm]

/-- Well-formedness is preserved by a successful return. -/
theorem WF_return {s : Store} {b : Borrowing} {e : Equipment} {rid u : Nat}
    {ca : Option Cond} {n : Option String} {now : Int} (hwf : WF s)
    (hb : findById s.borrowings rid = some b)
    (hs : b.status = .issued ∨ b.status = .overdue)
    (he : findById s.equipments b.equipment = some e) :
    WF {
      equipments := setById s.equipments b.equipment
        { e with availableQuantity := e.availableQuantity + b.quantity },
      borrowings := setById s.borrowings rid (returnedBorrowing b u ca n now) } := by
  obtain ⟨hndE, hndB, hbo⟩ := hwf
  refine ⟨nodupKeys_setById hndE _ _, nodupKeys_setById hndB _ _, ?_⟩
  intro p hp
  rcases List.mem_map.mp hp with ⟨q, hqm, hpq⟩
  subst hpq
  have hqo := hbo q hqm
  by_cases hqr : q.1 = rid
  · have hq2 : q.2 = b := by
      have := findById_of_pair_mem hndB hqm
      rw [hqr, hb] at this
      exact Option.some.injEq _ _ ▸ this.symm ▸ rfl
    rw [if_pos hqr]
    refine ⟨?_, ?_, ?_⟩
    · rw [returnedBorrowing_quantity, ← hq2]
      exact hqo.1
    · simp only
      rw [findById_setById_isSome, returnedBorrowing_equipment, ← hq2]
      exact hqo.2.1
    · apply damageOk_returnedBorrowing
      apply damageOk_none_of_not_returned (hq2 ▸ hqo.2.2)
      rcases hs with h | h <;> rw [h] <;> intro hcon <;> cases hcon
  · rw [if_neg hqr]
    refine ⟨hqo.1, ?_, hqo.2.2⟩
    simp only
    rw [findById_setById_isSome]
    exact hqo.2.1

/-- The ledger equation is preserved by a successful return: the released
units exactly cancel the borrowing leaving the active set. -/
theorem LedgerOk_return {s : Store} {b : Borrowing} {e : Equipment} {rid u : Nat}
    {ca : Option Cond} {n : Option String} {now : Int} (hwf : WF s)
    (hlg : LedgerOk s) (hb : findById s.borrowings rid = some b)
    (hs : b.status = .issued ∨ b.status = .overdue)
    (he : findById s.equipments b.equipment = some e) :
    LedgerOk {
      equipments := setById s.equipments b.equipment
        { e with availableQuantity := e.availableQuantity + b.quantity },
      borrowings := setById s.borrowings rid (returnedBorrowing b u ca n now) } := by
  obtain ⟨hndE, hndB, hbo⟩ := hwf
  have hq1 : 1 ≤ b.quantity := by
    have := hbo _ (findById_mem hb)
    exact this.1
  intro p hp
  rcases List.mem_map.mp hp with ⟨q, hqm, hpq⟩
  subst hpq
  have hqo := hlg q hqm
  have hsum := activeSum_setById hndB hb (returnedBorrowing b u ca n now)
  have hz2 : ∀ eid, bContrib eid (returnedBorrowing b u ca n now) = 0 := by
    intro eid
    apply bContrib_of_inactive
    rw [returnedBorrowing_status]
    rfl
  by_cases hqe : q.1 = b.equipment
  · have hq2 : q.2 = e := by
      have := findById_of_pair_mem hndE hqm
      rw [hqe, he] at this
      exact Option.some.injEq _ _ ▸ this.symm ▸ rfl
    rw [if_pos hqe]
    simp only
    rw [hsum b.equipment, hz2 b.equipment]
    have hcb : bContrib b.equipment b = b.quantity := by
      apply bContrib_active rfl
      rcases hs with h | h <;> rw [h] <;> rfl
    rw [hcb]
    rw [hq2, hqe] at hqo
    constructor
    · omega
    · omega
  · rw [if_neg hqe]
    rw [hsum q.1, hz2 q.1]
    have hzb : bContrib q.1 b = 0 := bContrib_of_ne (fun h => hqe h.symm)
    rw [hzb]
    constructor
    · have := hqo.1
      omega
    · exact hqo.2

theorem overdueUpdate_quantity (now : Int) (b : Borrowing) :
    (overdueUpdate now b).quantity = b.quantity := by
  unfold overdueUpdate
  split <;> rfl

theorem overdueUpdate_equipment (now : Int) (b : Borrowing) :
    (overdueUpdate now b).equipment = b.equipment := by
  unfold overdueUpdate
  split <;> rfl

theorem damageOk_overdueUpdate {b : Borrowing} (hd : DamageOk b) (now : Int) :
    DamageOk (overdueUpdate now b) := by
  unfold overdueUpdate
  split
  · rename_i hcond
    apply damageOk_of_none
    · have hnone : b.damageReport = none := by
        apply damageOk_none_of_not_returned hd
        rcases hcond.1 with h | h <;> rw [h] <;> intro hcon <;> cases hcon
      simpa using hnone
    · intro h
      cases h
  · exact hd

/-- Sweep A preserves well-formedness. -/
theorem WF_sweepA {s : Store} (hwf : WF s) (now : Int) :
    WF (checkOverdueBorrowings s now) := by
  obtain ⟨hndE, hndB, hbo⟩ := hwf
  refine ⟨hndE, ?_, ?_⟩
  · exact nodupKeys_mapVal s.borrowings (fun k b => overdueUpdate now b) hndB
  · intro p hp
    rcases List.mem_map.mp hp with ⟨q, hqm, hpq⟩
    subst hpq
    have hqo := hbo q hqm
    refine ⟨?_, ?_, ?_⟩
    · rw [overdueUpdate_quantity]
      exact hqo.1
    · simp only [checkOverdueBorrowings]
      rw [overdueUpdate_equipment]
      exact hqo.2.1
    · exact damageOk_overdueUpdate hqo.2.2 now

/-- Sweep A preserves the ledger equation: an overdue promotion keeps the
borrowing in the active set. -/
theorem LedgerOk_sweepA {s : Store} (hlg : LedgerOk s) (now : Int) :
    LedgerOk (checkOverdueBorrowings s now) := by
  intro p hp
  have hqo := hlg p hp
  simp only [checkOverdueBorrowings]
  rw [activeSum_overdue]
  exact hqo

/-- Sweep B preserves well-formedness. -/
theorem WF_sweepB {s : Store} (hwf : WF s) :
    WF (updateEquipmentAvailability s) := by
  obtain ⟨hndE, hndB, hbo⟩ := hwf
  refine ⟨?_, hndB, ?_⟩
  · exact nodupKeys_mapVal s.equipments
      (fun k e => reconcileEquipment s.borrowings k e) hndE
  · intro p hp
    have hqo := hbo p hp
    refine ⟨hqo.1, ?_, hqo.2.2⟩
    have h21 := hqo.2.1
    simp only [updateEquipmentAvailability]
    rw [findById_map]
    cases hfe : findById s.equipments p.2.equipment with
    | none =>
      rw [hfe] at h21
      simp at h21
    | some e => rfl

/-- Sweep B preserves the ledger equation (on such a store the clamp never
bites). -/
theorem LedgerOk_sweepB {s : Store} (hlg : LedgerOk s) :
    LedgerOk (updateEquipmentAvailability s) := by
  intro p hp
  simp only [updateEquipmentAvailability] at hp ⊢
  rcases List.mem_map.mp hp with ⟨q, hqm, hpq⟩
  subst hpq
  have hqo := hlg q hqm
  unfold reconcileEquipment
  by_cases ha : q.2.isActive
  · rw [if_pos ha]
    simp only
    have h3 : 0 ≤ q.2.quantity - activeSum s.borrowings q.1 := by
      have h1 := hqo.1
      have h2 := hqo.2
      omega
    rw [max_eq_right h3]
    exact ⟨rfl, h3⟩
  · rw [if_neg ha]
    exact hqo

/-- The central induction: every reachable store is well-formed, and if no
equipment-quantity edit ever happened, the ledger equation holds as well. -/
theorem reach_wf {flag : Bool} {s : Store} (h : Reach flag s) :
    WF s ∧ (flag = false → LedgerOk s) := by
  induction h with
  | init =>
    refine ⟨⟨?_, ?_, ?_⟩, ?_⟩
    · simp [NodupKeys, emptyStore]
    · simp [NodupKeys, emptyStore]
    · intro p hp
      simp [emptyStore] at hp
    · intro hfl p hp
      simp [emptyStore] at hp
  | @stepCreateEq s newId q c h hf ih =>
    rcases createEquipment_cases s newId q c with heq | ⟨hq, heq⟩
    · rw [heq]; exact ih
    · rw [heq]
      refine ⟨WF_consEquip ih.1 hf, fun hfl => ?_⟩
      refine LedgerOk_consEquip ih.1 (ih.2 hfl) hf rfl ?_
      show (0 : Int) ≤ q
      omega
  | @stepUpdateEq s nq eid nc na h hq ih =>
    rcases updateEquipment_cases s eid nq nc na with heq | ⟨e, he, hcase⟩
    · rw [heq]; exact ih
    · rcases hcase with ⟨hnone, heq⟩ | ⟨q2, hsome, hq0, heq⟩
      · rw [heq]
        exact ⟨WF_setEquip ih.1 _ _,
          fun hfl => LedgerOk_setEquip ih.1 (ih.2 hfl) he rfl rfl⟩
      · rw [heq]
        refine ⟨WF_setEquip ih.1 _ _, fun hfl => ?_⟩
        rw [hq hfl] at hsome
        cases hsome
  | @stepDeleteEq s eid h ih =>
    rcases deleteEquipment_cases s eid with heq | ⟨e, he, heq⟩
    · rw [heq]; exact ih
    · rw [heq]
      exact ⟨WF_setEquip ih.1 _ _,
        fun hfl => LedgerOk_setEquip ih.1 (ih.2 hfl) he rfl rfl⟩
  | @stepCreateRes s newId u eid q d now h hf ih =>
    rcases createReservation_cases s newId u eid q d now with heq | ⟨e, hq1, he, heq⟩
    · rw [heq]; exact ih
    · rw [heq]
      constructor
      · refine WF_consBorrow ih.1 hf ⟨?_, ?_, ?_⟩
        · exact hq1
        · show (findById s.equipments eid).isSome = true
          rw [he]
          rfl
        · exact damageOk_of_none rfl (by intro hcon; cases hcon)
      · intro hfl
        refine LedgerOk_consBorrow (ih.2 hfl) ?_
        intro eid2
        exact bContrib_of_inactive rfl
  | @stepApprove s rid a now h ih =>
    rcases approve_cases s rid a now with heq | ⟨b, e, hb, hs, he, hqa, heq⟩
    · rw [heq]; exact ih
    · rw [heq]
      exact ⟨WF_approve ih.1 hb hs he,
        fun hfl => LedgerOk_approve ih.1 (ih.2 hfl) hb hs he hqa⟩
  | @stepReject s rid a n now h ih =>
    rcases reject_cases s rid a n now with heq | ⟨b, hb, hs, heq⟩
    · rw [heq]; exact ih
    · rw [heq]
      have hbOk := ih.1.2.2 _ (findById_mem hb)
      have hdn : b.damageReport = none := by
        apply damageOk_none_of_not_returned hbOk.2.2
        rw [hs]
        intro hcon
        cases hcon
      constructor
      · refine WF_setBorrow ih.1 hb rfl rfl ?_
        exact damageOk_of_none (by simpa using hdn) (by intro hcon; cases hcon)
      · intro hfl
        refine LedgerOk_setBorrow ih.1 (ih.2 hfl) hb ?_
        intro eid2
        have h1 : bContrib eid2
            { b with
                status := .rejected, approvedBy := some a,
                approvedAt := some now,
                notes := some (n.getD "Request rejected") } = 0 :=
          bContrib_of_inactive rfl
        have h2 : bContrib eid2 b = 0 :=
          bContrib_of_inactive (by rw [hs]; rfl)
        rw [h1, h2]
  | @stepIssue s rid now h ih =>
    rcases issue_cases s rid now with heq | ⟨b, hb, hs, heq⟩
    · rw [heq]; exact ih
    · rw [heq]
      have hbOk := ih.1.2.2 _ (findById_mem hb)
      have hdn : b.damageReport = none := by
        apply damageOk_none_of_not_returned hbOk.2.2
        rw [hs]
        intro hcon
        cases hcon
      constructor
      · refine WF_setBorrow ih.1 hb rfl rfl ?_
        exact damageOk_of_none (by simpa using hdn) (by intro hcon; cases hcon)
      · intro hfl
        refine LedgerOk_setBorrow ih.1 (ih.2 hfl) hb ?_
        intro eid2
        by_cases heq2 : b.equipment = eid2
        · have h1 : bContrib eid2
              { b with status := .issued, issuedAt := some now } = b.quantity :=
            bContrib_active heq2 rfl
          have h2 : bContrib eid2 b = b.quantity :=
            bContrib_active heq2 (by rw [hs]; rfl)
          rw [h1, h2]
        · have h1 : bContrib eid2
              { b with status := .issued, issuedAt := some now } = 0 :=
            bContrib_of_ne heq2
          have h2 : bContrib eid2 b = 0 := bContrib_of_ne heq2
          rw [h1, h2]
  | @stepReturn s rid u ca n now h ih =>
    rcases returnItem_cases s rid u ca n now with heq | ⟨b, e, hb, hs, he, heq⟩
    · rw [heq]; exact ih
    · rw [heq]
      exact ⟨WF_return ih.1 hb hs he,
        fun hfl => LedgerOk_return ih.1 (ih.2 hfl) hb hs he⟩
  | @stepSweep s now h ih =>
    exact ⟨WF_sweepB (WF_sweepA ih.1 now),
      fun hfl => LedgerOk_sweepB (LedgerOk_sweepA (ih.2 hfl) now)⟩

end Lending
namespace Lending

def demoStore0 : Store := (createEquipment emptyStore 1 2 .good).2
def demoStore1 : Store := (createReservation demoStore0 10 100 1 2 50 10).2
def demoStore2 : Store := (approve demoStore1 10 200 11).2
def demoStore3 : Store := (issue demoStore2 10 12).2
def demoStore4 : Store := (updateEquipment demoStore3 1 (some 1) none none).2
def demoStore5 : Store := (returnItem demoStore4 10 100 none none 60).2

/-- Claim C1, counterexample: the exposed operations reach a store (create
equipment with total 2, reserve 2, approve, issue, edit total down to 1,
return) whose equipment has availableQuantity 2 but totalQuantity 1, so
invariant I1 fails and the return release is visibly unclamped. -/
theorem c1_counterexample :
    Reach true demoStore5 ∧
    (findById demoStore5.equipments 1).map
      (fun e => (e.availableQuantity, e.quantity)) = some (2, 1) ∧
    ¬((2 : Int) ≤ 1) := by
  refine ⟨?_, by decide, by decide⟩
  exact Reach.stepReturn (Reach.stepUpdateEq (Reach.stepIssue (Reach.stepApprove
    (Reach.stepCreateRes (Reach.stepCreateEq Reach.init (by decide)) (by decide))))
    (fun hcon => absurd hcon (by decide)))

/-- Claim C1 (amended): for every EquipmentType reachable by sequences of
the exposed operations that never edit an equipment quantity,
0 ≤ availableQuantity ≤ totalQuantity; with quantity edits allowed the
invariant fails because the return release is not clamped. -/
theorem c1_invariant_no_resize {s : Store} (h : Reach false s) :
    ∀ eid e, findById s.equipments eid = some e →
      0 ≤ e.availableQuantity ∧ e.availableQuantity ≤ e.quantity := by
  intro eid e he
  have hwf := (reach_wf h).1
  have hlg := (reach_wf h).2 rfl
  have hmem := findById_mem he
  have h1 : e.availableQuantity = e.quantity - activeSum s.borrowings eid :=
    (hlg (eid, e) hmem).1
  have h2 : (0 : Int) ≤ e.availableQuantity := (hlg (eid, e) hmem).2
  have hsum : 0 ≤ activeSum s.borrowings eid := by
    apply activeSum_nonneg
    intro p hp
    exact (hwf.2.2 p hp).1
  omega

/-- Claim C1, witness: the amended invariant evaluated on the store
reached by creating one equipment with quantity 2. -/
theorem c1_witness :
    0 ≤ (2 : Int) ∧ (2 : Int) ≤ 2 := by
  have hr : Reach false (createEquipment emptyStore 1 2 Cond.good).2 :=
    Reach.stepCreateEq Reach.init (by decide)
  have h := c1_invariant_no_resize hr 1
    { quantity := 2, availableQuantity := 2, condition := .good, isActive := true }
    (by decide)
  exact h

/-- Claim C2 (amended): immediately after the ledger-reconciliation sweep,
every active EquipmentType has availableQuantity equal to
max 0 (totalQuantity − Σ quantity of approved/issued/overdue reservations):
the recomputation is clamped at zero, not the plain difference. -/
theorem c2_reconcile_amended {s : Store} {eid : Nat} {e : Equipment}
    (he : findById s.equipments eid = some e) (ha : e.isActive = true) :
    findById (updateEquipmentAvailability s).equipments eid =
      some { e with availableQuantity := max 0 (e.quantity - activeSum s.borrowings eid) } := by
  unfold updateEquipmentAvailability
  simp only
  rw [findById_map, he]
  simp [reconcileEquipment, ha]

/-- Claim C2, counterexample: in the reachable store where totalQuantity
was edited to 1 below an issued reservation of quantity 2, the sweep sets
availableQuantity to 0, but totalQuantity − Σ = 1 − 2 = −1, so the claimed
unclamped equality fails. -/
theorem c2_counterexample :
    Reach true demoStore4 ∧
    activeSum demoStore4.borrowings 1 = 2 ∧
    (findById (updateEquipmentAvailability demoStore4).equipments 1).map
      (fun e => (e.availableQuantity, e.quantity)) = some (0, 1) ∧
    (0 : Int) ≠ 1 - 2 := by
  refine ⟨?_, by decide, by decide, by decide⟩
  exact Reach.stepUpdateEq (Reach.stepIssue (Reach.stepApprove
    (Reach.stepCreateRes (Reach.stepCreateEq Reach.init (by decide)) (by decide))))
    (fun hcon => absurd hcon (by decide))

/-- Claim C2, witness: the amended reconciliation equation evaluated on a
one-equipment store with no reservations. -/
theorem c2_witness :
    findById (updateEquipmentAvailability demoStore0).equipments 1 =
      some { quantity := 2, availableQuantity := 2, condition := .good,
             isActive := true } := by
  have h := c2_reconcile_amended
    (show findById demoStore0.equipments 1 =
      some { quantity := 2, availableQuantity := 2, condition := Cond.good,
             isActive := true } by decide)
    (by decide)
  exact h.trans (by decide)


def demoEquipStore : Store := (createEquipment emptyStore 1 5 .good).2

/-- Claim C3 (code bug), evaluation at the failing input: editing
quantity from 5 to 3 on an equipment with availableQuantity 5 leaves
availableQuantity at 5 (the PUT route uses findByIdAndUpdate, which skips
the pre-save hooks), and even the hook itself computes a zero delta
(availableQuantity stays 5) because `_originalQuantity` is only assigned,
after the adjusting hook already ran, to the new quantity; the result 5
violates the claimed clamp to [0, 3]. -/
theorem c3_update_ignores_delta :
    (findById ((updateEquipment demoEquipStore 1 (some 3) none none).2).equipments 1).map
      (fun e => (e.availableQuantity, e.quantity)) = some (5, 3) ∧
    preSaveQuantityAdjust none
        { quantity := 3, availableQuantity := 5, condition := .good, isActive := true } =
      { quantity := 3, availableQuantity := 5, condition := .good, isActive := true } ∧
    ¬((5 : Int) ≤ 3) := by decide

/-- Claim C4, counterexample: a request whose dueDate (5) is strictly in
the past of now (10) is admitted as a pending reservation rather than
rejected with ValidationError, and a request for 6 units against
availableQuantity 5 fails with the stock error even though the claim says
admission never consults availableQuantity. -/
theorem c4_counterexample :
    (createReservation demoEquipStore 10 100 1 1 5 10).1 =
      BResult.ok {
        user := 100, equipment := 1, quantity := 1, borrowDate := 10,
        dueDate := 5, returnDate := none, status := .pending, approvedBy := none,
        approvedAt := none, issuedAt := none, conditionBefore := .good,
        conditionAfter := none, notes := none, damageReport := none } ∧
    (5 : Int) < 10 ∧
    (createReservation demoEquipStore 11 100 1 6 50 10).1 =
      BResult.err .insufficientStock := by decide

/-- Claim C4 (amended): createReservation fails with ValidationError iff
quantity < 1 (the due date is only checked for being a well-formed date,
never for being in the future); fails with NotFound iff the equipment is
missing or soft-deleted; otherwise fails with the stock error iff
availableQuantity < quantity; otherwise fails with the booking-conflict
error iff some pending/approved/issued reservation of the same equipment
has borrowDate ≤ requested dueDate and dueDate ≥ now; and otherwise
inserts a pending reservation. -/
theorem c4_admission_amended (s : Store) (nid u eid : Nat) (q d now : Int) :
    (q < 1 → createReservation s nid u eid q d now = (.err .validationError, s)) ∧
    (1 ≤ q → findById s.equipments eid = none →
      createReservation s nid u eid q d now = (.err .notFound, s)) ∧
    (∀ e, 1 ≤ q → findById s.equipments eid = some e → e.isActive = false →
      createReservation s nid u eid q d now = (.err .notFound, s)) ∧
    (∀ e, 1 ≤ q → findById s.equipments eid = some e → e.isActive = true →
      e.availableQuantity < q →
      createReservation s nid u eid q d now = (.err .insufficientStock, s)) ∧
    (∀ e, 1 ≤ q → findById s.equipments eid = some e → e.isActive = true →
      q ≤ e.availableQuantity → hasOverlap s.borrowings eid d now = true →
      createReservation s nid u eid q d now = (.err .alreadyBooked, s)) ∧
    (∀ e, 1 ≤ q → findById s.equipments eid = some e → e.isActive = true →
      q ≤ e.availableQuantity → hasOverlap s.borrowings eid d now = false →
      createReservation s nid u eid q d now =
        (.ok {
           user := u, equipment := eid, quantity := q, borrowDate := now,
           dueDate := d, returnDate := none, status := .pending,
           approvedBy := none, approvedAt := none, issuedAt := none,
           conditionBefore := e.condition, conditionAfter := none,
           notes := none, damageReport := none },
         { s with borrowings := ((nid, {
             user := u, equipment := eid, quantity := q, borrowDate := now,
             dueDate := d, returnDate := none, status := .pending,
             approvedBy := none, approvedAt := none, issuedAt := none,
             conditionBefore := e.condition, conditionAfter := none,
             notes := none, damageReport := none }) :: s.borrowings) })) := by
  refine ⟨?_, ?_, ?_, ?_, ?_, ?_⟩
  · intro hq
    unfold createReservation
    rw [if_pos hq]
  · intro hq he
    unfold createReservation
    rw [if_neg (by omega), he]
  · intro e hq he ha
    unfold createReservation
    rw [if_neg (by omega), he]
    dsimp only
    rw [if_pos ha]
  · intro e hq he ha hlt
    unfold createReservation
    rw [if_neg (by omega), he]
    dsimp only
    rw [if_neg (by rw [ha]; intro hcon; cases hcon), if_pos hlt]
  · intro e hq he ha hge ho
    unfold createReservation
    rw [if_neg (by omega), he]
    dsimp only
    rw [if_neg (by rw [ha]; intro hcon; cases hcon), if_neg (not_lt.mpr hge)]
    simp [ho]
  · intro e hq he ha hge ho
    unfold createReservation
    rw [if_neg (by omega), he]
    dsimp only
    rw [if_neg (by rw [ha]; intro hcon; cases hcon), if_neg (not_lt.mpr hge)]
    simp [ho]

/-- Claim C4, witness: the amended characterization applied at quantity 0,
which is rejected with ValidationError. -/
theorem c4_witness :
    createReservation demoEquipStore 10 100 1 0 50 10 =
      (.err .validationError, demoEquipStore) :=
  (c4_admission_amended demoEquipStore 10 100 1 0 50 10).1 (by decide)


/-- Claim C5: approving a pending reservation with sufficient stock and
then approving it again decrements availableQuantity exactly once, by the
reservation quantity; the second call returns AlreadyProcessed and leaves
the store (hence availableQuantity) unchanged. -/
theorem c5_approve_idempotent {s : Store} {rid : Nat} (a a2 : Nat) (t t2 : Int)
    {b : Borrowing} {e : Equipment}
    (hb : findById s.borrowings rid = some b) (hs : b.status = .pending)
    (he : findById s.equipments b.equipment = some e)
    (hq : b.quantity ≤ e.availableQuantity) :
    ∃ b2 s1, approve s rid a t = (.ok b2, s1) ∧
      findById s1.equipments b.equipment =
        some { e with availableQuantity := e.availableQuantity - b.quantity } ∧
      approve s1 rid a2 t2 = (.err .alreadyProcessed, s1) := by
  have h1 : approve s rid a t =
      (.ok { b with status := .approved, approvedBy := some a, approvedAt := some t },
       { equipments := setById s.equipments b.equipment
           { e with availableQuantity := e.availableQuantity - b.quantity },
         borrowings := setById s.borrowings rid
           { b with status := .approved, approvedBy := some a, approvedAt := some t } }) := by
    unfold approve
    rw [hb]
    dsimp only
    rw [if_pos hs, he]
    dsimp only
    rw [if_neg (not_lt.mpr hq)]
  refine ⟨_, _, h1, ?_, ?_⟩
  · rw [findById_setById_self, he]
    rfl
  · unfold approve
    rw [show findById (setById s.borrowings rid
        { b with status := .approved, approvedBy := some a, approvedAt := some t }) rid =
        some { b with status := .approved, approvedBy := some a, approvedAt := some t } by
      rw [findById_setById_self, hb]; rfl]
    dsimp only
    rw [if_neg (by intro hcon; cases hcon)]


/-- Claim C6: approving a pending reservation whose equipment has
availableQuantity strictly below the reservation quantity fails with
InsufficientStock and returns the store unchanged, so both the ledger and
the reservation status (still pending) are untouched. -/
theorem c6_insufficient_stock_atomic {s : Store} {rid a : Nat} {t : Int}
    {b : Borrowing} {e : Equipment}
    (hb : findById s.borrowings rid = some b) (hs : b.status = .pending)
    (he : findById s.equipments b.equipment = some e)
    (hq : e.availableQuantity < b.quantity) :
    approve s rid a t = (.err .insufficientStock, s) := by
  unfold approve
  rw [hb]
  dsimp only
  rw [if_pos hs, he]
  dsimp only
  rw [if_pos hq]

def stockStoreB : Store := {
  equipments := [(1, {
    quantity := 2, availableQuantity := 0,
    condition := .good, isActive := true })],
  borrowings := [(10, {
    user := 100, equipment := 1, quantity := 1,
    borrowDate := 10, dueDate := 50, returnDate := none, status := .pending,
    approvedBy := none, approvedAt := none, issuedAt := none,
    conditionBefore := .good, conditionAfter := none, notes := none,
    damageReport := none })] }

/-- Claim C6, witness: the spec Scenario B store (total 2, available 0,
pending reservation of quantity 1). -/
theorem c6_witness :
    approve stockStoreB 10 200 11 = (.err .insufficientStock, stockStoreB) :=
  c6_insufficient_stock_atomic
    (show findById stockStoreB.borrowings 10 = some {
        user := 100, equipment := 1, quantity := 1,
        borrowDate := 10, dueDate := 50, returnDate := none, status := .pending,
        approvedBy := none, approvedAt := none, issuedAt := none,
        conditionBefore := .good, conditionAfter := none, notes := none,
        damageReport := none } by decide)
    (by decide)
    (show findById stockStoreB.equipments 1 = some {
        quantity := 2, availableQuantity := 0,
        condition := .good, isActive := true } by decide)
    (by decide)

/-- Claim C7 (amended): approve, then issue, then returnItem on a pending
reservation with sufficient stock restores the equipment document exactly
to its pre-approval value; the issue step is required because returnItem
rejects a reservation still in the approved state. -/
theorem c7_round_trip_amended {s : Store} {rid : Nat} (a u : Nat)
    (t1 t2 t3 : Int) (ca : Option Cond) (n : Option String)
    {b : Borrowing} {e : Equipment}
    (hb : findById s.borrowings rid = some b) (hs : b.status = .pending)
    (he : findById s.equipments b.equipment = some e)
    (hq : b.quantity ≤ e.availableQuantity) :
    ∃ b1 s1 b2 s2 b3 s3,
      approve s rid a t1 = (.ok b1, s1) ∧
      issue s1 rid t2 = (.ok b2, s2) ∧
      returnItem s2 rid u ca n t3 = (.ok b3, s3) ∧
      findById s3.equipments b.equipment = some e := by
  have h1 : approve s rid a t1 =
      (.ok { b with
         status := .approved, approvedBy := some a, approvedAt := some t1 },
       { equipments := (setById s.equipments b.equipment { e with
           availableQuantity := e.availableQuantity - b.quantity }),
         borrowings := (setById s.borrowings rid { b with
           status := .approved, approvedBy := some a, approvedAt := some t1 }) }) := by
    unfold approve
    rw [hb]
    dsimp only
    rw [if_pos hs, he]
    dsimp only
    rw [if_neg (not_lt.mpr hq)]
  have h2 : issue
      { equipments := (setById s.equipments b.equipment { e with
          availableQuantity := e.availableQuantity - b.quantity }),
        borrowings := (setById s.borrowings rid { b with
          status := .approved, approvedBy := some a, approvedAt := some t1 }) }
      rid t2 =
      (.ok { b with
         status := .issued, approvedBy := some a, approvedAt := some t1,
         issuedAt := some t2 },
       { equipments := (setById s.equipments b.equipment { e with
           availableQuantity := e.availableQuantity - b.quantity }),
         borrowings := (setById (setById s.borrowings rid { b with
           status := .approved, approvedBy := some a, approvedAt := some t1 }) rid
           { b with
             status := .issued, approvedBy := some a, approvedAt := some t1,
             issuedAt := some t2 }) }) := by
    unfold issue
    rw [show findById (setById s.borrowings rid { b with
        status := .approved, approvedBy := some a, approvedAt := some t1 }) rid =
        some { b with
          status := .approved, approvedBy := some a, approvedAt := some t1 } by
      rw [findById_setById_self, hb]; rfl]
    dsimp only
    rw [if_pos rfl]
  have h3 : returnItem
      { equipments := (setById s.equipments b.equipment { e with
          availableQuantity := e.availableQuantity - b.quantity }),
        borrowings := (setById (setById s.borrowings rid { b with
          status := .approved, approvedBy := some a, approvedAt := some t1 }) rid
          { b with
            status := .issued, approvedBy := some a, approvedAt := some t1,
            issuedAt := some t2 }) }
      rid u ca n t3 =
      (.ok (returnedBorrowing { b with
          status := .issued, approvedBy := some a, approvedAt := some t1,
          issuedAt := some t2 } u ca n t3),
       { equipments := (setById (setById s.equipments b.equipment { e with
           availableQuantity := e.availableQuantity - b.quantity }) b.equipment
           { e with
             availableQuantity := e.availableQuantity - b.quantity + b.quantity }),
         borrowings := (setById (setById (setById s.borrowings rid { b with
           status := .approved, approvedBy := some a, approvedAt := some t1 }) rid
           { b with
             status := .issued, approvedBy := some a, approvedAt := some t1,
             issuedAt := some t2 }) rid
           (returnedBorrowing { b with
             status := .issued, approvedBy := some a, approvedAt := some t1,
             issuedAt := some t2 } u ca n t3)) }) := by
    unfold returnItem
    rw [show findById (setById (setById s.borrowings rid { b with
        status := .approved, approvedBy := some a, approvedAt := some t1 }) rid
        { b with
          status := .issued, approvedBy := some a, approvedAt := some t1,
          issuedAt := some t2 }) rid =
        some { b with
          status := .issued, approvedBy := some a, approvedAt := some t1,
          issuedAt := some t2 } by
      rw [findById_setById_self, findById_setById_self, hb]; rfl]
    dsimp only
    rw [if_pos (Or.inl rfl)]
    rw [show findById (setById s.equipments b.equipment { e with
        availableQuantity := e.availableQuantity - b.quantity }) b.equipment =
        some { e with
          availableQuantity := e.availableQuantity - b.quantity } by
      rw [findById_setById_self, he]; rfl]
    rfl
  refine ⟨_, _, _, _, _, _, h1, h2, h3, ?_⟩
  rw [findById_setById_self, findById_setById_self, he]
  show some _ = some e
  have hfix : { e with
      availableQuantity := e.availableQuantity - b.quantity + b.quantity } = e := by
    obtain ⟨q1, a1, c1, i1⟩ := e
    simp only [Equipment.mk.injEq]
    refine ⟨trivial, by omega, trivial, trivial⟩
  rw [hfix]


/-- Claim C5, witness: the double-approve run on a concrete reachable
store with total 2 and a pending reservation of quantity 2. -/
theorem c5_witness : ∃ b2 s1,
    approve demoStore1 10 200 11 = (.ok b2, s1) ∧
    findById s1.equipments 1 = some {
      quantity := 2, availableQuantity := 0, condition := .good, isActive := true } ∧
    approve s1 10 201 12 = (.err .alreadyProcessed, s1) := by
  have h := c5_approve_idempotent 200 201 11 12
    (show findById demoStore1.borrowings 10 = some {
        user := 100, equipment := 1, quantity := 2, borrowDate := 10, dueDate := 50,
        returnDate := none, status := .pending, approvedBy := none, approvedAt := none,
        issuedAt := none, conditionBefore := .good, conditionAfter := none,
        notes := none, damageReport := none } by decide)
    (by decide)
    (show findById demoStore1.equipments 1 = some {
        quantity := 2, availableQuantity := 2, condition := .good,
        isActive := true } by decide)
    (by decide)
  obtain ⟨b2, s1, h1, h2, h3⟩ := h
  exact ⟨b2, s1, h1, h2.trans (by decide), h3⟩

def demoC1 : Store := (createReservation demoEquipStore 10 100 1 3 50 10).2
def demoC2 : Store := (approve demoC1 10 200 11).2
def demoC3 : Store := (issue demoC2 10 12).2
def demoC4 : Store := (returnItem demoC3 10 100 (some .poor) none 60).2

/-- Claim C7, counterexample: on a reachable store (equipment total 5,
reservation of quantity 3 approved, never issued), returnItem directly
after approve fails with InvalidTransition and availableQuantity stays at
2 instead of being restored to the pre-approval 5. -/
theorem c7_counterexample :
    returnItem demoC2 10 100 none none 60 = (.err .invalidTransition, demoC2) ∧
    (findById demoC2.equipments 1).map (fun e => e.availableQuantity) = some 2 ∧
    ((2 : Int) = 5 → False) := by decide

/-- Claim C7, witness: the approve-issue-return round trip on a concrete
store restores availableQuantity to 5. -/
theorem c7_witness : ∃ b1 s1 b2 s2 b3 s3,
    approve demoC1 10 200 11 = (.ok b1, s1) ∧
    issue s1 10 12 = (.ok b2, s2) ∧
    returnItem s2 10 100 none none 60 = (.ok b3, s3) ∧
    findById s3.equipments 1 = some {
      quantity := 5, availableQuantity := 5, condition := .good, isActive := true } := by
  have h := c7_round_trip_amended 200 100 11 12 60 none none
    (show findById demoC1.borrowings 10 = some {
        user := 100, equipment := 1, quantity := 3, borrowDate := 10, dueDate := 50,
        returnDate := none, status := .pending, approvedBy := none, approvedAt := none,
        issuedAt := none, conditionBefore := .good, conditionAfter := none,
        notes := none, damageReport := none } by decide)
    (by decide)
    (show findById demoC1.equipments 1 = some {
        quantity := 5, availableQuantity := 5, condition := .good,
        isActive := true } by decide)
    (by decide)
  obtain ⟨b1, s1, b2, s2, b3, s3, h1, h2, h3, h4⟩ := h
  exact ⟨b1, s1, b2, s2, b3, s3, h1, h2, h3, h4⟩

theorem findById_overdue (l : List (Nat × Borrowing)) (now : Int) (k : Nat) :
    findById (l.map (fun p => (p.1, overdueUpdate now p.2))) k =
      (findById l k).map (overdueUpdate now) := by
  induction l with
  | nil => rfl
  | cons p rest ih => by_cases h : p.1 = k <;> simp [findById, h, ih]

/-- Claim C8: after one run of the overdue sweep, every reservation with
status approved or issued, dueDate strictly before now and no returnDate
is overdue; every other reservation is completely unchanged; and the sweep
never touches the equipment collection (no ledger effect). -/
theorem c8_overdue_sweep (s : Store) (now : Int) (rid : Nat) (b : Borrowing)
    (hb : findById s.borrowings rid = some b) :
    (((b.status = .approved ∨ b.status = .issued) ∧ b.dueDate < now ∧
        b.returnDate = none) →
      findById (checkOverdueBorrowings s now).borrowings rid =
        some { b with status := .overdue }) ∧
    (¬((b.status = .approved ∨ b.status = .issued) ∧ b.dueDate < now ∧
        b.returnDate = none) →
      findById (checkOverdueBorrowings s now).borrowings rid = some b) ∧
    (checkOverdueBorrowings s now).equipments = s.equipments := by
  refine ⟨?_, ?_, rfl⟩
  · intro hcond
    unfold checkOverdueBorrowings
    simp only
    rw [findById_overdue, hb]
    simp only [Option.map]
    unfold overdueUpdate
    rw [if_pos hcond]
  · intro hcond
    unfold checkOverdueBorrowings
    simp only
    rw [findById_overdue, hb]
    simp only [Option.map]
    unfold overdueUpdate
    rw [if_neg hcond]

def overdueBorrow : Borrowing := {
  user := 100, equipment := 1, quantity := 1, borrowDate := 1, dueDate := 5,
  returnDate := none, status := .issued, approvedBy := some 200,
  approvedAt := some 2, issuedAt := some 3, conditionBefore := .good,
  conditionAfter := none, notes := none, damageReport := none }

def overdueStore : Store := {
  equipments := [(1, {
    quantity := 2, availableQuantity := 1, condition := .good, isActive := true })],
  borrowings := [(10, overdueBorrow)] }

/-- Claim C8, witness: the sweep on a store holding one issued, lapsed
reservation. -/
theorem c8_witness :
    (((overdueBorrow.status = .approved ∨ overdueBorrow.status = .issued) ∧
        overdueBorrow.dueDate < 10 ∧ overdueBorrow.returnDate = none) →
      findById (checkOverdueBorrowings overdueStore 10).borrowings 10 =
        some { overdueBorrow with status := .overdue }) ∧
    (¬((overdueBorrow.status = .approved ∨ overdueBorrow.status = .issued) ∧
        overdueBorrow.dueDate < 10 ∧ overdueBorrow.returnDate = none) →
      findById (checkOverdueBorrowings overdueStore 10).borrowings 10 =
        some overdueBorrow) ∧
    (checkOverdueBorrowings overdueStore 10).equipments = overdueStore.equipments :=
  c8_overdue_sweep overdueStore 10 10 overdueBorrow (by decide)

/-- Claim C9: in every reachable store, a reservation carries a
DamageReport iff it is returned and its recorded conditionAfter differs
from conditionBefore, and any report present has repairStatus reported;
since returned is terminal and only the return handler writes the field,
the report is created at most once and only at return time. -/
theorem c9_damage_report_iff {flag : Bool} {s : Store} (h : Reach flag s)
    (rid : Nat) (b : Borrowing) (hb : findById s.borrowings rid = some b) :
    (b.damageReport.isSome = true ↔
      (b.status = .returned ∧ ∃ c, b.conditionAfter = some c ∧
        c ≠ b.conditionBefore)) ∧
    ∀ d, b.damageReport = some d → d.repairStatus = .reported :=
  ((reach_wf h).1.2.2 _ (findById_mem hb)).2.2

def damagedBorrow : Borrowing := {
  user := 100, equipment := 1, quantity := 3, borrowDate := 10, dueDate := 50,
  returnDate := some 60, status := .returned, approvedBy := some 200,
  approvedAt := some 11, issuedAt := some 12, conditionBefore := .good,
  conditionAfter := some .poor, notes := none,
  damageReport := some {
    description := "Equipment condition changed from good to poor",
    reportedAt := 60, reportedBy := 100, repairStatus := .reported } }

/-- Claim C9, witness: the invariant evaluated on the reachable store
where a quantity-3 reservation was returned with condition poor after
being borrowed in condition good. -/
theorem c9_witness :
    (damagedBorrow.damageReport.isSome = true ↔
      (damagedBorrow.status = .returned ∧
        ∃ c, damagedBorrow.conditionAfter = some c ∧
          c ≠ damagedBorrow.conditionBefore)) ∧
    ∀ d, damagedBorrow.damageReport = some d → d.repairStatus = .reported := by
  have hr0 : Reach false demoEquipStore := Reach.stepCreateEq Reach.init (by decide)
  have hr1 : Reach false demoC1 := Reach.stepCreateRes hr0 (by decide)
  have hr2 : Reach false demoC2 := Reach.stepApprove hr1
  have hr3 : Reach false demoC3 := Reach.stepIssue hr2
  have hr4 : Reach false demoC4 := Reach.stepReturn hr3
  exact c9_damage_report_iff hr4 10 damagedBorrow (by decide)

/-- Claim C10: the second-registered approve and return handlers compute
exactly the same response and store update as the first-registered ones on
every input, so the dead duplicate registrations cannot change observable
behaviour. -/
theorem c10_duplicate_handlers_equal (s : Store) (rid a u : Nat)
    (ca : Option Cond) (n : Option String) (now : Int) :
    approveDup s rid a now = approve s rid a now ∧
    returnItemDup s rid u ca n now = returnItem s rid u ca n now :=
  ⟨rfl, rfl⟩

end Lending
